import Mathlib

/-!
Shallow embedding of `game_logger.py` (the `GameLogger` SQLite game store of
the lichess-bot repository) and proofs of the specified properties.

The store's three tables (`games`, `move_evals`, `live_state`) are embedded as
lists of row records; `INSERT OR REPLACE` is delete-matching-then-append,
`UPDATE ... WHERE` is a key-preserving map, `DELETE ... WHERE` is a filter.
Each lifecycle operation mirrors the Python method body: attribute accesses on
the duck-typed `game` descriptor are `Option` fields (a missing attribute
raises), the storage engine is given a per-call success flag (a raising
statement aborts the operation's uncommitted transaction), and the
`try/except` wrapper around each body is modelled explicitly — including the
fact that the handler itself evaluates `game.id` for its log message.
-/

deriving instance DecidableEq for Except

namespace GameLogger

/-- Moves are identified by their UCI encoding, as produced by `move.uci()`. -/
abbrev Move := String

/-- Embedding of `chess.Board` as its move stack (`board.move_stack`). -/
structure Board where
  move_stack : List Move
deriving DecidableEq, Repr

/-- External chess library capabilities consumed by the logger: `board.san`
(SAN of a move relative to the position reached by a move list; `none` models
the exception python-chess raises on an illegal move) and `board.fen`. -/
structure ChessLib where
  san : List Move → Move → Option String
  fen : List Move → String

/-- Embedding of a python-chess score value: forced mate in `n` or `c`
centipawns. -/
inductive ScoreVal where
  | mate (n : Int) : ScoreVal
  | cp (c : Int) : ScoreVal
deriving DecidableEq, Repr

/-- Negation of a score, as python-chess does when switching perspective. -/
def ScoreVal.neg : ScoreVal → ScoreVal
  | .mate n => .mate (-n)
  | .cp c => .cp (-c)

/-- Embedding of `chess.engine.PovScore`: a score value together with the
point of view it is relative to (`povWhite = true` means White's POV). -/
structure PovScore where
  val : ScoreVal
  povWhite : Bool
deriving DecidableEq, Repr

/-- Embedding of `PovScore.white()`: the score from White's point of view. -/
def PovScore.white (s : PovScore) : ScoreVal :=
  if s.povWhite then s.val else s.val.neg

/-- A Python number that is either an `int` or a `float` (floats are embedded
as exact rationals). -/
inductive PyNum where
  | pint (n : Int) : PyNum
  | pfloat (q : ℚ) : PyNum
deriving DecidableEq, Repr

/-- Embedding of Python `int(·)` truncation toward zero on a rational. -/
def pyTrunc (q : ℚ) : Int :=
  Int.tdiv q.num (q.den : Int)

/-- Embedding of the engine commentary dictionary: each recognized key is an
`Option` field (`dict.get` returns `None` for an absent key). -/
structure Commentary where
  score : Option PovScore
  depth : Option Int
  nodes : Option Int
  nps : Option Int
  time : Option PyNum
  ponderpv : Option String
deriving DecidableEq, Repr

/-- Embedding of the `game.state` dictionary (`dict.get` never raises, so the
fields are plain `Option`s). -/
structure GState where
  wtime : Option Int
  btime : Option Int
  winner : Option String
  status : Option String
deriving DecidableEq, Repr

/-- Embedding of the duck-typed `game` descriptor. A `none` field models a
missing attribute/method: accessing it raises `AttributeError`. The opponent
accesses are flattened (`game.opponent.name` is `opponent_name`, etc.),
`game.game_start.isoformat()` is `game_start_iso`, and
`int(game.clock_initial.total_seconds() * 1000)` is `clock_initial_ms`.
The `result` method is modelled after `MockGame.result` in the repository's
tests; `has_result` records whether the descriptor exposes it at all. -/
structure GameDesc where
  id : Option String
  short_url : Option String
  my_color : Option String
  opponent_name : Option String
  opponent_rating : Option Int
  opponent_is_bot : Option Bool
  time_control : Option String
  speed : Option String
  mode : Option String
  game_start_iso : Option String
  clock_initial_ms : Option Int
  is_white : Option Bool
  state : Option GState
  has_result : Bool
deriving DecidableEq, Repr

/-- Embedding of `MockGame.result` from the repository's tests: `"1-0"` for a
White win, `"0-1"` for a Black win, and `"*"` otherwise. -/
def resultToken (winner : Option String) : String :=
  if winner = some "white" then "1-0"
  else if winner = some "black" then "0-1"
  else "*"

/-- Row of the `games` table. Columns not listed by `game_started`'s
`INSERT OR REPLACE` (`termination`, `finished_at`, `moves_uci`) are `NULL`. -/
structure GRow where
  game_id : String
  lichess_url : String
  bot_color : String
  opponent_name : String
  opponent_rating : Int
  opponent_is_bot : Int
  time_control : String
  speed : String
  mode : String
  provenance : String
  status : String
  result : String
  termination : Option String
  started_at : String
  finished_at : Option String
  moves_uci : Option String
deriving DecidableEq, Repr

/-- Row of the append-only `move_evals` table (the `AUTOINCREMENT` surrogate
key is the list position and is not materialized). -/
structure MRow where
  game_id : String
  ply : Int
  move_uci : String
  move_san : String
  eval_cp : Option Int
  eval_mate : Option Int
  depth : Option Int
  pv : Option String
  nodes : Option Int
  nps : Option Int
  time_ms : Option Int
  source : String
  clock_ms : Option Int
deriving DecidableEq, Repr

/-- Row of the `live_state` table. -/
structure LRow where
  game_id : String
  fen : String
  last_move_uci : Option String
  moves_uci : String
  wtime_ms : Option Int
  btime_ms : Option Int
deriving DecidableEq, Repr

/-- The database state: the three tables owned by the logger. -/
structure Store where
  games : List GRow
  move_evals : List MRow
  live_state : List LRow
deriving DecidableEq, Repr

/-- The empty (freshly created) database. -/
def Store.empty : Store := ⟨[], [], []⟩

/-- Value of `chess.STARTING_FEN`. -/
def STARTING_FEN : String :=
  "rnbqkbnr/pppppppp/8/8/8/8/PPPPPPPP/RNBQKBNR w KQkq - 0 1"

/-- Embedding of `" ".join(m.uci() for m in board.move_stack)`. -/
def joinUci (ms : List Move) : String :=
  String.intercalate " " ms

/-- The attribute values read while building `game_started`'s two parameter
tuples (source lines 102-114 and 120-125). -/
structure StartFields where
  id : String
  url : String
  color : String
  oname : String
  orating : Int
  obot : Bool
  tc : String
  speed : String
  mode : String
  startedAt : String
  clockMs : Int
deriving DecidableEq, Repr

/-- Reads every attribute `game_started` needs from the descriptor; `none`
when any access raises. -/
def startFields (g : GameDesc) : Option StartFields :=
  match g.id, g.short_url, g.my_color, g.opponent_name, g.opponent_rating,
      g.opponent_is_bot, g.time_control, g.speed, g.mode, g.game_start_iso,
      g.clock_initial_ms with
  | some id, some url, some color, some oname, some orating, some obot,
      some tc, some speed, some mode, some startedAt, some clockMs =>
    some ⟨id, url, color, oname, orating, obot, tc, speed, mode, startedAt,
          clockMs⟩
  | _, _, _, _, _, _, _, _, _, _, _ => none

/-- The `games` row inserted by `game_started`: descriptor fields plus the
forced `status = 'playing'` and `result = '*'`; columns not in the column
list (`termination`, `finished_at`, `moves_uci`) are `NULL`. -/
def startGRow (f : StartFields) (prov : String) : GRow :=
  { game_id := f.id, lichess_url := f.url, bot_color := f.color,
    opponent_name := f.oname, opponent_rating := f.orating,
    opponent_is_bot := if f.obot then 1 else 0,
    time_control := f.tc, speed := f.speed, mode := f.mode,
    provenance := prov, status := "playing", result := "*",
    termination := none, started_at := f.startedAt,
    finished_at := none, moves_uci := none }

/-- The `live_state` row inserted by `game_started`. -/
def startLRow (f : StartFields) : LRow :=
  { game_id := f.id, fen := STARTING_FEN, last_move_uci := none,
    moves_uci := "", wtime_ms := some f.clockMs, btime_ms := some f.clockMs }

/-- Body of `GameLogger.game_started` (inside the `try`): `INSERT OR REPLACE`
into `games`, then `INSERT OR REPLACE` into `live_state`, then `commit`. A
raising statement aborts the uncommitted transaction. -/
def game_startedBody (g : GameDesc) (prov : String) (ok : Bool) (s : Store) :
    Except String Store :=
  match startFields g with
  | none => .error "AttributeError"
  | some f =>
    if ok then
      .ok { games := s.games.filter (fun r => r.game_id ≠ f.id) ++
              [startGRow f prov],
            move_evals := s.move_evals,
            live_state := s.live_state.filter (fun r => r.game_id ≠ f.id) ++
              [startLRow f] }
    else .error "OperationalError"

/-- `GameLogger.game_started`: the body under `try`, with an `except` handler
that formats its log message with `game.id` — so the handler itself raises
when the descriptor has no `id` attribute. -/
def game_started (g : GameDesc) (prov : String) (ok : Bool) (s : Store) :
    Except String Store :=
  match game_startedBody g prov ok s with
  | .ok s1 => .ok s1
  | .error _ =>
    match g.id with
    | some _ => .ok s
    | none => .error "AttributeError"

/-- Value left in the `eval_mate` local after the commentary block of
`move_played` (source lines 149-165): set only when a score is present and
its White-normalized value is a mate. -/
def evalMateOf (c : Option Commentary) : Option Int :=
  match c with
  | some cc =>
    match cc.score with
    | some sc => match sc.white with | .mate n => some n | .cp _ => none
    | none => none
  | none => none

/-- Value left in the `eval_cp` local: set only when a score is present and
its White-normalized value is not a mate. -/
def evalCpOf (c : Option Commentary) : Option Int :=
  match c with
  | some cc =>
    match cc.score with
    | some sc => match sc.white with | .mate _ => none | .cp v => some v
    | none => none
  | none => none

/-- Value left in the `depth` local: copied through when present. -/
def depthOf (c : Option Commentary) : Option Int :=
  match c with | some cc => cc.depth | none => none

/-- Value left in the `nodes` local: copied through when present. -/
def nodesOf (c : Option Commentary) : Option Int :=
  match c with | some cc => cc.nodes | none => none

/-- Value left in the `nps` local: copied through when present. -/
def npsOf (c : Option Commentary) : Option Int :=
  match c with | some cc => cc.nps | none => none

/-- Value left in the `time_ms` local (source lines 170-172): a `float` is
multiplied by 1000 and truncated with `int(·)`, an `int` is stored as is. -/
def timeMsOf (c : Option Commentary) : Option Int :=
  match c with
  | some cc =>
    match cc.time with
    | some (.pfloat q) => some (pyTrunc (q * 1000))
    | some (.pint n) => some n
    | none => none
  | none => none

/-- Value left in the `pv_str` local (source lines 173-175): the `ponderpv`
string when present and truthy (the empty string is falsy). -/
def pvStrOf (c : Option Commentary) : Option String :=
  match c with
  | some cc =>
    match cc.ponderpv with
    | some p => if p = "" then none else some p
    | none => none
  | none => none

/-- The `move_evals` row inserted by `move_played` for board `b` (its move
stack still holding the played move `m`), state bundle `st` and bot color
`w`. -/
def mrowOf (b : Board) (m : Move) (sanStr : String) (c : Option Commentary)
    (src : String) (st : GState) (w : Bool) (id : String) : MRow :=
  { game_id := id, ply := (b.move_stack.length : Int) - 1, move_uci := m,
    move_san := sanStr, eval_cp := evalCpOf c, eval_mate := evalMateOf c,
    depth := depthOf c, pv := pvStrOf c, nodes := nodesOf c, nps := npsOf c,
    time_ms := timeMsOf c, source := src,
    clock_ms := if w then st.wtime else st.btime }

/-- Body of `GameLogger.move_played` (inside the `try`). The result is
`Sum.inl b1` when a statement raises (`b1` is the board as the exception
leaves it — mutations before the raise persist) and `Sum.inr (s1, b1)` on
normal completion. Steps, in source order: `ply = len(board.move_stack) - 1`;
`board.pop()` (raises on an empty stack); `board.san(move)` (raises on an
illegal move, leaving the board popped); `board.push(move)`; commentary
extraction; clock lookup keyed by `game.is_white`; the `INSERT` into
`move_evals` (whose parameter tuple reads `game.id`); `commit`. -/
def movePlayedBody (lib : ChessLib) (g : GameDesc) (b : Board) (m : Move)
    (c : Option Commentary) (src : String) (ok : Bool) (s : Store) :
    Sum Board (Store × Board) :=
  if b.move_stack = [] then .inl b
  else
    match lib.san b.move_stack.dropLast m with
    | none => .inl ⟨b.move_stack.dropLast⟩
    | some move_san =>
      match g.state with
      | none => .inl ⟨b.move_stack.dropLast ++ [m]⟩
      | some st =>
        match g.is_white with
        | none => .inl ⟨b.move_stack.dropLast ++ [m]⟩
        | some w =>
          match g.id with
          | none => .inl ⟨b.move_stack.dropLast ++ [m]⟩
          | some id =>
            if ok then
              .inr ({ s with move_evals := s.move_evals ++
                       [mrowOf b m move_san c src st w id] },
                    ⟨b.move_stack.dropLast ++ [m]⟩)
            else .inl ⟨b.move_stack.dropLast ++ [m]⟩

/-- `GameLogger.move_played`: body under `try` plus the `except` handler that
formats its log message with `game.id`. The pair carries the caller's board
(mutated in place in the source). -/
def move_played (lib : ChessLib) (g : GameDesc) (b : Board) (m : Move)
    (c : Option Commentary) (src : String) (ok : Bool) (s : Store) :
    Except String (Store × Board) :=
  match movePlayedBody lib g b m c src ok s with
  | .inr p => .ok p
  | .inl bErr =>
    match g.id with
    | some _ => .ok (s, bErr)
    | none => .error "AttributeError"

/-- New field values written by `update_live_state`'s `UPDATE`: current FEN,
last move (`None` for an empty stack), space-joined move history, and both
clocks from the game's state bundle. -/
def updateLRow (lib : ChessLib) (b : Board) (st : GState) (r : LRow) : LRow :=
  { r with fen := lib.fen b.move_stack,
           last_move_uci := b.move_stack.getLast?,
           moves_uci := joinUci b.move_stack,
           wtime_ms := st.wtime, btime_ms := st.btime }

/-- Body of `GameLogger.update_live_state` (inside the `try`): read
`game.state`, then `UPDATE live_state ... WHERE game_id = ?`, then
`commit`. -/
def update_live_stateBody (lib : ChessLib) (g : GameDesc) (b : Board)
    (ok : Bool) (s : Store) : Except String Store :=
  match g.state with
  | none => .error "AttributeError"
  | some st =>
    match g.id with
    | none => .error "AttributeError"
    | some id =>
      if ok then
        .ok { s with live_state := s.live_state.map (fun r =>
                if r.game_id = id then updateLRow lib b st r else r) }
      else .error "OperationalError"

/-- `GameLogger.update_live_state`: body under `try` plus the handler that
formats its log message with `game.id`. -/
def update_live_state (lib : ChessLib) (g : GameDesc) (b : Board) (ok : Bool)
    (s : Store) : Except String Store :=
  match update_live_stateBody lib g b ok s with
  | .ok s1 => .ok s1
  | .error _ =>
    match g.id with
    | some _ => .ok s
    | none => .error "AttributeError"

/-- New field values written by `game_finished`'s `UPDATE` of the `games`
row: finished status, result token, termination reason, finish timestamp and
the copied live move history. -/
def finishGRow (res : String) (termination : Option String) (now : String)
    (moves : Option String) (r : GRow) : GRow :=
  { r with status := "finished", result := res, termination := termination,
           finished_at := some now, moves_uci := moves }

/-- The live move history `game_finished` reads back with its `SELECT` before
deleting the row: `None` when no `live_state` row exists for the game. -/
def liveMoves (s : Store) (id : String) : Option String :=
  (s.live_state.find? (fun r => r.game_id = id)).map (fun r => r.moves_uci)

/-- Body of `GameLogger.game_finished` (inside the `try`): read winner and
termination from `game.state`, compute `game.result()`, `SELECT` the live
move history, `UPDATE` the `games` row, `DELETE` the `live_state` row, then
`commit`. `now` stands for the value of
`datetime.datetime.now(datetime.timezone.utc).isoformat()` taken during the
call. -/
def game_finishedBody (g : GameDesc) (now : String) (ok : Bool) (s : Store) :
    Except String Store :=
  match g.state with
  | none => .error "AttributeError"
  | some st =>
    if g.has_result then
      match g.id with
      | none => .error "AttributeError"
      | some id =>
        if ok then
          .ok { s with
            games := s.games.map (fun r =>
              if r.game_id = id then
                finishGRow (resultToken st.winner) st.status now
                  (liveMoves s id) r
              else r),
            live_state := s.live_state.filter (fun r => r.game_id ≠ id) }
        else .error "OperationalError"
    else .error "AttributeError"

/-- `GameLogger.game_finished`: body under `try` plus the handler that
formats its log message with `game.id`. -/
def game_finished (g : GameDesc) (now : String) (ok : Bool) (s : Store) :
    Except String Store :=
  match game_finishedBody g now ok s with
  | .ok s1 => .ok s1
  | .error _ =>
    match g.id with
    | some _ => .ok s
    | none => .error "AttributeError"

/-- One call to a lifecycle operation, with its inputs and the storage
engine's behaviour during the call (`ok = false`: some statement raises). -/
inductive Op where
  | started (g : GameDesc) (prov : String) (ok : Bool) : Op
  | played (g : GameDesc) (b : Board) (m : Move) (c : Option Commentary)
      (src : String) (ok : Bool) : Op
  | updated (g : GameDesc) (b : Board) (ok : Bool) : Op
  | finished (g : GameDesc) (now : String) (ok : Bool) : Op

/-- The store state after a lifecycle call: a propagated exception leaves the
uncommitted transaction unapplied, so the store is unchanged either way. -/
def applyOp (lib : ChessLib) (s : Store) : Op → Store
  | .started g prov ok =>
    match game_started g prov ok s with | .ok s1 => s1 | .error _ => s
  | .played g b m c src ok =>
    match move_played lib g b m c src ok s with | .ok p => p.1 | .error _ => s
  | .updated g b ok =>
    match update_live_state lib g b ok s with | .ok s1 => s1 | .error _ => s
  | .finished g now ok =>
    match game_finished g now ok s with | .ok s1 => s1 | .error _ => s

/-- The store reached from an empty database by a sequence of lifecycle
calls. -/
def runOps (lib : ChessLib) (ops : List Op) : Store :=
  ops.foldl (applyOp lib) Store.empty

/-- Successive `move_played` calls for one game: call `k` is made with the
board holding the first `k+1` moves of the game, its last move being the one
logged (`played` is the prefix already logged, `rest` the moves still to
come). -/
def playFrom (lib : ChessLib) (g : GameDesc) (c : Option Commentary)
    (src : String) : List Move → List Move → Store → Store
  | _, [], s => s
  | played, m :: rest, s =>
    match move_played lib g ⟨played ++ [m]⟩ m c src true s with
    | .ok p => playFrom lib g c src (played ++ [m]) rest p.1
    | .error _ => playFrom lib g c src (played ++ [m]) rest s

/-- A sequence of `update_live_state` calls for one game: each call supplies
the current board and the game's current clock bundle. -/
def runUpdates (lib : ChessLib) (g : GameDesc) :
    List (Board × GState) → Store → Store
  | [], s => s
  | (b, st) :: rest, s =>
    match update_live_state lib { g with state := some st } b true s with
    | .ok s1 => runUpdates lib g rest s1
    | .error _ => runUpdates lib g rest s

/-- The `games` rows whose `game_id` is `gid`. -/
def gamesFor (s : Store) (gid : String) : List GRow :=
  s.games.filter (fun r => r.game_id = gid)

/-- The `move_evals` rows whose `game_id` is `gid`, in table (= insertion)
order. -/
def evalsFor (s : Store) (gid : String) : List MRow :=
  s.move_evals.filter (fun r => r.game_id = gid)

/-- The `live_state` rows whose `game_id` is `gid`. -/
def liveFor (s : Store) (gid : String) : List LRow :=
  s.live_state.filter (fun r => r.game_id = gid)

/-- Every game ID other than `gid` holds exactly the same data in both
stores. -/
def agreesExcept (s s1 : Store) (gid : String) : Prop :=
  ∀ x, x ≠ gid →
    gamesFor s x = gamesFor s1 x ∧ evalsFor s x = evalsFor s1 x ∧
    liveFor s x = liveFor s1 x

/-- Referential invariant: every `live_state` row's game ID has a `games`
row. -/
def LiveHasGame (s : Store) : Prop :=
  ∀ l ∈ s.live_state, ∃ r ∈ s.games, r.game_id = l.game_id

/-- The board as the caller sees it after `move_played`'s body ran, whether
the body completed or raised. -/
def boardOut : Sum Board (Store × Board) → Board
  | .inl b => b
  | .inr p => p.2

/-- A database file: each table is `none` while it does not exist; index and
column existence is tracked by flags (`games_has_moves_uci` is the additive
migration's column). -/
structure DbFile where
  games : Option (List GRow)
  move_evals : Option (List MRow)
  live_state : Option (List LRow)
  idx_move_evals_game : Bool
  idx_games_status : Bool
  idx_games_started : Bool
  games_has_moves_uci : Bool
deriving DecidableEq, Repr

/-- Embedding of `GameLogger.__init__`'s schema work: the
`CREATE TABLE IF NOT EXISTS` / `CREATE INDEX IF NOT EXISTS` script, then the
`ALTER TABLE games ADD COLUMN moves_uci TEXT` migration whose
`sqlite3.OperationalError` (column already exists) is caught and ignored. A
`games` table freshly created by the script already contains the column. -/
def initLogger (d : DbFile) : DbFile :=
  let d1 : DbFile :=
    { games := some (d.games.getD []),
      move_evals := some (d.move_evals.getD []),
      live_state := some (d.live_state.getD []),
      idx_move_evals_game := true,
      idx_games_status := true,
      idx_games_started := true,
      games_has_moves_uci := if d.games.isSome then d.games_has_moves_uci else true }
  if d1.games_has_moves_uci then d1
  else
    { d1 with
      games_has_moves_uci := true,
      games := some ((d1.games.getD []).map (fun r => { r with moves_uci := none })) }

/-- A fully-populated game descriptor mirroring the tests' `MockGame`. -/
def gEx : GameDesc :=
  { id := some "test_game_1"
    short_url := some "https://lichess.org/test_game_1"
    my_color := some "white"
    opponent_name := some "TestOpponent"
    opponent_rating := some 1500
    opponent_is_bot := some false
    time_control := some "180+2"
    speed := some "blitz"
    mode := some "rated"
    game_start_iso := some "2025-01-15T12:00:00+00:00"
    clock_initial_ms := some 180000
    is_white := some true
    state := some { wtime := some 180000, btime := some 180000,
                    winner := none, status := some "started" }
    has_result := true }

/-- A descriptor exposing no attribute at all — not even `id`. -/
def gNone : GameDesc :=
  { id := none, short_url := none, my_color := none, opponent_name := none,
    opponent_rating := none, opponent_is_bot := none, time_control := none,
    speed := none, mode := none, game_start_iso := none,
    clock_initial_ms := none, is_white := none, state := none,
    has_result := false }

/-- A stub chess library for concrete evaluations: SAN tags the UCI, FEN is
the joined move list. -/
def libEx : ChessLib :=
  { san := fun _ m => some (String.append "san-" m)
    fen := fun ms => joinUci ms }

/-- A descriptor whose game ended with no winner (`state.get("winner")` is
`None`, as after a stalemate or agreed draw). -/
def gNoWinner : GameDesc :=
  { gEx with state := some ⟨some 175000, some 170000, none, some "stalemate"⟩ }

/-- The store after `game_started` followed by `game_finished` on a game with
no winner. -/
def c3Run : Store :=
  applyOp libEx
    (applyOp libEx Store.empty (Op.started gEx "matchmaking" true))
    (Op.finished gNoWinner "2025-01-15T12:30:00+00:00" true)

/-- A descriptor whose game ended with White winning by checkmate. -/
def gWin : GameDesc :=
  { gEx with state := some ⟨some 175000, some 170000, some "white",
                            some "mate"⟩ }

/-- The store holding the started game on which the C3 witness finishes. -/
def c3WitStore : Store :=
  applyOp libEx Store.empty (Op.started gEx "matchmaking" true)

/-- The expected `(ply, move_uci)` pairs for a run of moves whose first move
is the `k`-th ply of the game. -/
def plyPairs (k : Nat) : List Move → List (Int × Move)
  | [] => []
  | m :: rest => ((k : Int), m) :: plyPairs (k + 1) rest

/-- A commentary bundle with a mate-in-3 score from White's point of view
and an integer elapsed time. -/
def ccMate : Commentary :=
  ⟨some ⟨.mate 3, true⟩, some 12, some 50000, some 1000000,
   some (.pint 50), some "e5 Nf3"⟩

/-- The tests' `make_commentary()` bundle: 35 centipawns from White's point
of view, depth 12, and an elapsed time of 0.05 fractional seconds. -/
def ccCp : Commentary :=
  ⟨some ⟨.cp 35, true⟩, some 12, some 50000, some 1000000,
   some (.pfloat (1/20)), some "e5 Nf3"⟩

/-- A concrete two-call update sequence for the C7 witness. -/
def updEx : List (Board × GState) :=
  [(Board.mk ["e2e4"], ⟨some 178000, some 180000, none, some "started"⟩),
   (Board.mk ["e2e4", "e7e5"],
    ⟨some 178000, some 177000, none, some "started"⟩)]

section ListKey

variable {α : Type} (key : α → String) (f : α → α)

/-- Rows surviving a keyed delete contain no row with the deleted key. -/
theorem filter_delete_self (l : List α) (id : String) :
    ((l.filter (fun r => key r ≠ id)).filter (fun r => key r = id)) = [] := by
  simp

/-- A keyed delete leaves the rows of every other key unchanged. -/
theorem filter_delete_frame (l : List α) (id x : String) (hx : x ≠ id) :
    ((l.filter (fun r => key r ≠ id)).filter (fun r => key r = x)) =
      l.filter (fun r => key r = x) := by
  have hx' : ¬ id = x := fun hc => hx hc.symm
  induction l with
  | nil => rfl
  | cons a t ih =>
    by_cases h : key a = id
    · simpa [h, hx', -List.filter_filter] using ih
    · by_cases h2 : key a = x <;> simpa [h, h2, hx, -List.filter_filter] using ih

/-- After a keyed replace (delete-then-append), the replaced key holds exactly
the new row. -/
theorem filter_replace_self (l : List α) (id : String) (row : α)
    (hrow : key row = id) :
    ((l.filter (fun r => key r ≠ id) ++ [row]).filter (fun r => key r = id)) =
      [row] := by
  rw [List.filter_append, filter_delete_self]
  simp [hrow]

/-- A keyed replace leaves the rows of every other key unchanged. -/
theorem filter_replace_frame (l : List α) (id x : String) (row : α)
    (hrow : key row = id) (hx : x ≠ id) :
    ((l.filter (fun r => key r ≠ id) ++ [row]).filter (fun r => key r = x)) =
      l.filter (fun r => key r = x) := by
  rw [List.filter_append, filter_delete_frame key l id x hx]
  have hrx : ¬ key row = x := fun hc => hx (hc.symm.trans hrow)
  simp [hrx]

/-- A keyed update maps exactly the rows of the updated key. -/
theorem filter_update_self (l : List α) (id : String)
    (hf : ∀ r, key (f r) = key r) :
    ((l.map (fun r => if key r = id then f r else r)).filter
        (fun r => key r = id)) =
      (l.filter (fun r => key r = id)).map f := by
  induction l with
  | nil => rfl
  | cons a t ih =>
    by_cases h : key a = id
    · have hfa : key (f a) = id := (hf a).trans h
      simpa [h, hfa, -List.filter_filter] using ih
    · simpa [h, -List.filter_filter] using ih

/-- A keyed update leaves the rows of every other key unchanged. -/
theorem filter_update_frame (l : List α) (id x : String) (hx : x ≠ id)
    (hf : ∀ r, key (f r) = key r) :
    ((l.map (fun r => if key r = id then f r else r)).filter
        (fun r => key r = x)) =
      l.filter (fun r => key r = x) := by
  have hx' : ¬ id = x := fun hc => hx hc.symm
  induction l with
  | nil => rfl
  | cons a t ih =>
    by_cases h : key a = id
    · have hfa : key (f a) = id := (hf a).trans h
      have hfx : ¬ key (f a) = x := fun hc => hx (hc.symm.trans hfa)
      simpa [h, hfa, hfx, hx', -List.filter_filter] using ih
    · by_cases h2 : key a = x <;> simpa [h, h2, hx, -List.filter_filter] using ih

/-- Appending a row of another key does not change a key's rows. -/
theorem filter_append_single_frame (l : List α) (id x : String) (row : α)
    (hrow : key row = id) (hx : x ≠ id) :
    ((l ++ [row]).filter (fun r => key r = x)) =
      l.filter (fun r => key r = x) := by
  have hrx : ¬ key row = x := fun hc => hx (hc.symm.trans hrow)
  simp [List.filter_append, hrx]

/-- Appending a row of a key appends it to that key's rows. -/
theorem filter_append_single_self (l : List α) (x : String) (row : α)
    (hrow : key row = x) :
    ((l ++ [row]).filter (fun r => key r = x)) =
      l.filter (fun r => key r = x) ++ [row] := by
  simp [List.filter_append, hrow]

end ListKey

theorem startFields_id {g : GameDesc} {f : StartFields}
    (h : startFields g = some f) : g.id = some f.id := by
  unfold startFields at h
  split at h
  · next id url color oname orating obot tc speed mode startedAt clockMs
      hid hurl hcolor honame horating hobot htc hspeed hmode hstart hclock =>
    cases h
    exact hid
  · simp at h

theorem game_startedBody_ok {g : GameDesc} {prov : String} {ok : Bool}
    {s s1 : Store} (h : game_startedBody g prov ok s = .ok s1) :
    ∃ f, startFields g = some f ∧ ok = true ∧
      s1 = { games := s.games.filter (fun r => r.game_id ≠ f.id) ++
               [startGRow f prov],
             move_evals := s.move_evals,
             live_state := s.live_state.filter (fun r => r.game_id ≠ f.id) ++
               [startLRow f] } := by
  unfold game_startedBody at h
  cases hf : startFields g with
  | none => rw [hf] at h; simp at h
  | some f =>
    rw [hf] at h
    cases ok with
    | false => simp at h
    | true => exact ⟨f, rfl, rfl, by simpa using h.symm⟩

theorem movePlayedBody_inr {lib : ChessLib} {g : GameDesc} {b : Board}
    {m : Move} {c : Option Commentary} {src : String} {ok : Bool} {s : Store}
    {p : Store × Board} (h : movePlayedBody lib g b m c src ok s = .inr p) :
    ∃ sanStr st w id,
      b.move_stack ≠ [] ∧
      lib.san b.move_stack.dropLast m = some sanStr ∧
      g.state = some st ∧ g.is_white = some w ∧ g.id = some id ∧ ok = true ∧
      p = ({ s with move_evals := s.move_evals ++
               [mrowOf b m sanStr c src st w id] },
           ⟨b.move_stack.dropLast ++ [m]⟩) := by
  unfold movePlayedBody at h
  by_cases hb : b.move_stack = []
  · rw [if_pos hb] at h; simp at h
  · rw [if_neg hb] at h
    cases hsan : lib.san b.move_stack.dropLast m with
    | none => rw [hsan] at h; simp at h
    | some sanStr =>
      rw [hsan] at h
      cases hst : g.state with
      | none => rw [hst] at h; simp at h
      | some st =>
        rw [hst] at h
        cases hw : g.is_white with
        | none => rw [hw] at h; simp at h
        | some w =>
          rw [hw] at h
          cases hid : g.id with
          | none => rw [hid] at h; simp at h
          | some id =>
            rw [hid] at h
            cases ok with
            | false => simp at h
            | true =>
              exact ⟨sanStr, st, w, id, hb, rfl, rfl, rfl, rfl, rfl,
                by simpa using h.symm⟩

theorem update_live_stateBody_ok {lib : ChessLib} {g : GameDesc} {b : Board}
    {ok : Bool} {s s1 : Store}
    (h : update_live_stateBody lib g b ok s = .ok s1) :
    ∃ st id, g.state = some st ∧ g.id = some id ∧ ok = true ∧
      s1 = { s with live_state := s.live_state.map (fun r =>
               if r.game_id = id then updateLRow lib b st r else r) } := by
  unfold update_live_stateBody at h
  cases hst : g.state with
  | none => rw [hst] at h; simp at h
  | some st =>
    rw [hst] at h
    cases hid : g.id with
    | none => rw [hid] at h; simp at h
    | some id =>
      rw [hid] at h
      cases ok with
      | false => simp at h
      | true => exact ⟨st, id, rfl, rfl, rfl, by simpa using h.symm⟩

theorem game_finishedBody_ok {g : GameDesc} {now : String} {ok : Bool}
    {s s1 : Store} (h : game_finishedBody g now ok s = .ok s1) :
    ∃ st id, g.state = some st ∧ g.has_result = true ∧ g.id = some id ∧
      ok = true ∧
      s1 = { s with
        games := s.games.map (fun r =>
          if r.game_id = id then
            finishGRow (resultToken st.winner) st.status now (liveMoves s id) r
          else r),
        live_state := s.live_state.filter (fun r => r.game_id ≠ id) } := by
  unfold game_finishedBody at h
  cases hst : g.state with
  | none => rw [hst] at h; simp at h
  | some st =>
    rw [hst] at h
    cases hres : g.has_result with
    | false => rw [hres] at h; simp at h
    | true =>
      rw [hres] at h
      simp only [if_true] at h
      cases hid : g.id with
      | none => rw [hid] at h; simp at h
      | some id =>
        rw [hid] at h
        cases ok with
        | false => simp at h
        | true => exact ⟨st, id, rfl, rfl, rfl, rfl, by simpa using h.symm⟩

theorem agreesExcept_refl (s : Store) (gid : String) : agreesExcept s s gid :=
  fun _ _ => ⟨rfl, rfl, rfl⟩

/-- C1 counterexample: on a descriptor with no `id` attribute every lifecycle
operation propagates the `AttributeError` raised inside the `except` handler
itself (the handler's log message evaluates `game.id`). -/
theorem c1_counterexample :
    game_started gNone "test" true Store.empty = .error "AttributeError" ∧
    move_played libEx gNone (Board.mk []) "e2e4" none "search" true
      Store.empty = .error "AttributeError" ∧
    update_live_state libEx gNone (Board.mk []) true Store.empty =
      .error "AttributeError" ∧
    game_finished gNone "t" true Store.empty = .error "AttributeError" := by
  decide

/-- C1 (amended): for every input whose descriptor exposes the game ID
attribute — malformed otherwise at will — and every storage-engine behaviour,
each of the four lifecycle operations returns normally, and the data of every
other game ID is unchanged. -/
theorem c1_swallowed_and_isolated (g : GameDesc) (gid : String)
    (hid : g.id = some gid) (lib : ChessLib) (b : Board) (m : Move)
    (c : Option Commentary) (src prov now : String) (ok : Bool) (s : Store) :
    (∃ s1, game_started g prov ok s = .ok s1 ∧ agreesExcept s s1 gid) ∧
    (∃ p, move_played lib g b m c src ok s = .ok p ∧
       agreesExcept s p.1 gid) ∧
    (∃ s1, update_live_state lib g b ok s = .ok s1 ∧ agreesExcept s s1 gid) ∧
    (∃ s1, game_finished g now ok s = .ok s1 ∧ agreesExcept s s1 gid) := by
  refine ⟨?_, ?_, ?_, ?_⟩
  · cases hbody : game_startedBody g prov ok s with
    | error e =>
      refine ⟨s, ?_, agreesExcept_refl s gid⟩
      unfold game_started
      rw [hbody, hid]
    | ok s1 =>
      obtain ⟨f, hf, -, hs1⟩ := game_startedBody_ok hbody
      have hfid : f.id = gid := by
        have h2 := startFields_id hf
        rw [hid] at h2
        exact (Option.some.inj h2).symm
      refine ⟨s1, ?_, ?_⟩
      · unfold game_started; rw [hbody]
      · intro x hx
        subst hs1
        refine ⟨?_, rfl, ?_⟩
        · exact (filter_replace_frame (fun r => r.game_id) s.games f.id x
            (startGRow f prov) rfl (fun hc => hx (hc.trans hfid))).symm
        · exact (filter_replace_frame (fun r => r.game_id) s.live_state f.id x
            (startLRow f) rfl (fun hc => hx (hc.trans hfid))).symm
  · cases hbody : movePlayedBody lib g b m c src ok s with
    | inl bErr =>
      refine ⟨(s, bErr), ?_, agreesExcept_refl s gid⟩
      unfold move_played
      rw [hbody, hid]
    | inr p =>
      obtain ⟨sanStr, st, w, idv, -, -, -, -, hidv, -, hp⟩ :=
        movePlayedBody_inr hbody
      rw [hid] at hidv
      have hide : idv = gid := Option.some.inj hidv.symm
      refine ⟨p, ?_, ?_⟩
      · unfold move_played; rw [hbody]
      · intro x hx
        subst hp
        refine ⟨rfl, ?_, rfl⟩
        exact (filter_append_single_frame (fun r => r.game_id) s.move_evals
          gid x (mrowOf b m sanStr c src st w idv) hide hx).symm
  · cases hbody : update_live_stateBody lib g b ok s with
    | error e =>
      refine ⟨s, ?_, agreesExcept_refl s gid⟩
      unfold update_live_state
      rw [hbody, hid]
    | ok s1 =>
      obtain ⟨st, idv, -, hidv, -, hs1⟩ := update_live_stateBody_ok hbody
      rw [hid] at hidv
      have hide : idv = gid := Option.some.inj hidv.symm
      refine ⟨s1, ?_, ?_⟩
      · unfold update_live_state; rw [hbody]
      · intro x hx
        subst hs1
        refine ⟨rfl, rfl, ?_⟩
        have hkey : ∀ r : LRow, (updateLRow lib b st r).game_id = r.game_id :=
          fun r => rfl
        exact (filter_update_frame (fun r => r.game_id) (updateLRow lib b st)
          s.live_state idv x (fun hc => hx (hc.trans hide)) hkey).symm
  · cases hbody : game_finishedBody g now ok s with
    | error e =>
      refine ⟨s, ?_, agreesExcept_refl s gid⟩
      unfold game_finished
      rw [hbody, hid]
    | ok s1 =>
      obtain ⟨st, idv, -, -, hidv, -, hs1⟩ := game_finishedBody_ok hbody
      rw [hid] at hidv
      have hide : idv = gid := Option.some.inj hidv.symm
      refine ⟨s1, ?_, ?_⟩
      · unfold game_finished; rw [hbody]
      · intro x hx
        subst hs1
        refine ⟨?_, rfl, ?_⟩
        · have hkey : ∀ r : GRow,
              (finishGRow (resultToken st.winner) st.status now
                (liveMoves s idv) r).game_id = r.game_id := fun r => rfl
          exact (filter_update_frame (fun r => r.game_id)
            (finishGRow (resultToken st.winner) st.status now (liveMoves s idv))
            s.games idv x (fun hc => hx (hc.trans hide)) hkey).symm
        · exact (filter_delete_frame (fun r => r.game_id) s.live_state idv x
            (fun hc => hx (hc.trans hide))).symm

/-- C1 witness: the amended theorem applied to a concrete well-formed
descriptor, board and store. -/
theorem c1_witness :
    (∃ s1, game_started gEx "matchmaking" true Store.empty = .ok s1 ∧
       agreesExcept Store.empty s1 "test_game_1") ∧
    (∃ p, move_played libEx gEx (Board.mk ["e2e4"]) "e2e4" none "search" true
       Store.empty = .ok p ∧ agreesExcept Store.empty p.1 "test_game_1") ∧
    (∃ s1, update_live_state libEx gEx (Board.mk ["e2e4"]) true Store.empty =
       .ok s1 ∧ agreesExcept Store.empty s1 "test_game_1") ∧
    (∃ s1, game_finished gEx "2025-01-15T12:30:00+00:00" true Store.empty =
       .ok s1 ∧ agreesExcept Store.empty s1 "test_game_1") :=
  c1_swallowed_and_isolated gEx "test_game_1" rfl libEx (Board.mk ["e2e4"])
    "e2e4" none "search" "matchmaking" "2025-01-15T12:30:00+00:00" true
    Store.empty

/-- C2: after `game_started` on a well-formed descriptor, exactly one `games`
row and exactly one `live_state` row exist for the game's ID — the `games`
row with status `"playing"` and result `"*"`, the `live_state` row with the
starting FEN, no last move, empty move history, and both clocks equal to the
initial allotment in milliseconds; any pre-existing rows for this ID (in an
arbitrary starting store) are overwritten rather than causing a
duplicate-key failure. -/
theorem c2_game_started_state (g : GameDesc) (id url color oname : String)
    (orating : Int) (obot : Bool) (tc sp mo ga : String) (ck : Int)
    (iw : Option Bool) (st : Option GState) (hr : Bool) (prov : String)
    (s : Store)
    (hg : g = ⟨some id, some url, some color, some oname, some orating,
               some obot, some tc, some sp, some mo, some ga, some ck,
               iw, st, hr⟩) :
    ∃ s1, game_started g prov true s = .ok s1 ∧
      gamesFor s1 id =
        [⟨id, url, color, oname, orating, if obot then 1 else 0, tc, sp, mo,
          prov, "playing", "*", none, ga, none, none⟩] ∧
      liveFor s1 id = [⟨id, STARTING_FEN, none, "", some ck, some ck⟩] := by
  subst hg
  refine ⟨_, rfl, ?_, ?_⟩
  · exact filter_replace_self (fun r => r.game_id) s.games id
      (startGRow ⟨id, url, color, oname, orating, obot, tc, sp, mo, ga, ck⟩
        prov) rfl
  · exact filter_replace_self (fun r => r.game_id) s.live_state id
      (startLRow ⟨id, url, color, oname, orating, obot, tc, sp, mo, ga, ck⟩)
      rfl

/-- C2 witness: the theorem applied to the concrete `MockGame`-like
descriptor over a store that already holds rows for the same game ID. -/
theorem c2_witness :
    ∃ s1, game_started gEx "matchmaking" true
        ⟨[⟨"test_game_1", "u", "black", "X", 1, 0, "t", "s", "m", "p", "old",
           "old", none, "old", none, none⟩], [],
         [⟨"test_game_1", "f", none, "x", none, none⟩]⟩ = .ok s1 ∧
      gamesFor s1 "test_game_1" =
        [⟨"test_game_1", "https://lichess.org/test_game_1", "white",
          "TestOpponent", 1500, if false then 1 else 0, "180+2", "blitz",
          "rated", "matchmaking", "playing", "*", none,
          "2025-01-15T12:00:00+00:00", none, none⟩] ∧
      liveFor s1 "test_game_1" =
        [⟨"test_game_1", STARTING_FEN, none, "", some 180000, some 180000⟩] :=
  c2_game_started_state gEx "test_game_1" "https://lichess.org/test_game_1"
    "white" "TestOpponent" 1500 false "180+2" "blitz" "rated"
    "2025-01-15T12:00:00+00:00" 180000 (some true)
    (some ⟨some 180000, some 180000, none, some "started"⟩) true "matchmaking"
    ⟨[⟨"test_game_1", "u", "black", "X", 1, 0, "t", "s", "m", "p", "old",
       "old", none, "old", none, none⟩], [],
     [⟨"test_game_1", "f", none, "x", none, none⟩]⟩ rfl

/-- C3 counterexample: finishing a game with no winner stores the pending
token `"*"` as the result — not the draw token `"1/2-1/2"` the claim
asserts. -/
theorem c3_counterexample :
    (gamesFor c3Run "test_game_1").map (fun r => r.result) = ["*"] ∧
    ("*" : String) ≠ "1/2-1/2" := by
  decide

/-- C3 (amended): `game_finished` reads the move history out of `live_state`,
updates the `games` row to finished status with the result token (White win
`"1-0"`, Black win `"0-1"`, and the pending token `"*"` when there is no
winner — as the descriptor's `result` method of the repository's tests
returns), the termination reason, the current finish timestamp, and the move
history that was in `live_state` just before deletion, then deletes the
`live_state` row; the absence of a prior `live_state` or `games` row is not
an error. -/
theorem c3_game_finished_effect (g : GameDesc) (gid : String) (st : GState)
    (now : String) (s : Store) (hid : g.id = some gid)
    (hst : g.state = some st) (hr : g.has_result = true) :
    ∃ s1, game_finished g now true s = .ok s1 ∧
      liveFor s1 gid = [] ∧
      gamesFor s1 gid = (gamesFor s gid).map
        (finishGRow (resultToken st.winner) st.status now (liveMoves s gid)) ∧
      (st.winner = some "white" → resultToken st.winner = "1-0") ∧
      (st.winner = some "black" → resultToken st.winner = "0-1") ∧
      (st.winner ≠ some "white" → st.winner ≠ some "black" →
        resultToken st.winner = "*") ∧
      (∀ r ∈ gamesFor s1 gid,
        r.status = "finished" ∧ r.result = resultToken st.winner ∧
        r.termination = st.status ∧ r.finished_at = some now ∧
        r.moves_uci = liveMoves s gid) := by
  have hkey : ∀ r : GRow,
      (finishGRow (resultToken st.winner) st.status now
        (liveMoves s gid) r).game_id = r.game_id := fun r => rfl
  have hbody : game_finishedBody g now true s = .ok
      { s with
        games := s.games.map (fun r =>
          if r.game_id = gid then
            finishGRow (resultToken st.winner) st.status now (liveMoves s gid)
              r
          else r),
        live_state := s.live_state.filter (fun r => r.game_id ≠ gid) } := by
    unfold game_finishedBody
    rw [hst, hr, hid]
    rfl
  have hmap : gamesFor
      ({ s with
        games := s.games.map (fun r =>
          if r.game_id = gid then
            finishGRow (resultToken st.winner) st.status now (liveMoves s gid)
              r
          else r),
        live_state := s.live_state.filter (fun r => r.game_id ≠ gid) } :
          Store) gid = (gamesFor s gid).map
        (finishGRow (resultToken st.winner) st.status now (liveMoves s gid)) :=
    filter_update_self (fun r : GRow => r.game_id)
      (finishGRow (resultToken st.winner) st.status now (liveMoves s gid))
      s.games gid hkey
  refine ⟨_, ?_, ?_, hmap, ?_, ?_, ?_, ?_⟩
  · unfold game_finished; rw [hbody]
  · exact filter_delete_self (fun r => r.game_id) s.live_state gid
  · intro h; simp [resultToken, h]
  · intro h; simp [resultToken, h]
  · intro h1 h2; simp [resultToken, h1, h2]
  · intro r hrm
    rw [hmap] at hrm
    obtain ⟨r0, -, rfl⟩ := List.mem_map.1 hrm
    exact ⟨rfl, rfl, rfl, rfl, rfl⟩

/-- C3 witness: the amended theorem applied to a concrete White win over the
started game's store. -/
theorem c3_witness :
    ∃ s1, game_finished gWin "2025-01-15T12:30:00+00:00" true c3WitStore =
        .ok s1 ∧
      liveFor s1 "test_game_1" = [] ∧
      gamesFor s1 "test_game_1" = (gamesFor c3WitStore "test_game_1").map
        (finishGRow (resultToken (some "white")) (some "mate")
          "2025-01-15T12:30:00+00:00" (liveMoves c3WitStore "test_game_1")) ∧
      ((some "white" : Option String) = some "white" →
        resultToken (some "white") = "1-0") ∧
      ((some "white" : Option String) = some "black" →
        resultToken (some "white") = "0-1") ∧
      ((some "white" : Option String) ≠ some "white" →
        (some "white" : Option String) ≠ some "black" →
        resultToken (some "white") = "*") ∧
      (∀ r ∈ gamesFor s1 "test_game_1",
        r.status = "finished" ∧ r.result = resultToken (some "white") ∧
        r.termination = some "mate" ∧
        r.finished_at = some "2025-01-15T12:30:00+00:00" ∧
        r.moves_uci = liveMoves c3WitStore "test_game_1") :=
  c3_game_finished_effect gWin "test_game_1"
    ⟨some 175000, some 170000, some "white", some "mate"⟩
    "2025-01-15T12:30:00+00:00" c3WitStore rfl rfl rfl

theorem move_played_eq (lib : ChessLib) (g : GameDesc) (gid : String)
    (st : GState) (w : Bool) (hid : g.id = some gid) (hst : g.state = some st)
    (hw : g.is_white = some w) (ms : List Move) (m : Move) (sanStr : String)
    (hsan : lib.san ms m = some sanStr) (c : Option Commentary) (src : String)
    (s : Store) :
    move_played lib g ⟨ms ++ [m]⟩ m c src true s =
      .ok ({ s with move_evals := s.move_evals ++
              [mrowOf ⟨ms ++ [m]⟩ m sanStr c src st w gid] }, ⟨ms ++ [m]⟩) := by
  have hne : ¬ (Board.mk (ms ++ [m])).move_stack = [] := by simp
  unfold move_played movePlayedBody
  rw [if_neg hne]
  rw [show (Board.mk (ms ++ [m])).move_stack.dropLast = ms from
    List.dropLast_concat]
  rw [hsan, hst, hw, hid]
  rfl

theorem mrowOf_concat (ms : List Move) (m : Move) (sanStr : String)
    (c : Option Commentary) (src : String) (st : GState) (w : Bool)
    (gid : String) :
    mrowOf ⟨ms ++ [m]⟩ m sanStr c src st w gid =
      ⟨gid, (ms.length : Int), m, sanStr, evalCpOf c, evalMateOf c, depthOf c,
       pvStrOf c, nodesOf c, npsOf c, timeMsOf c, src,
       if w then st.wtime else st.btime⟩ := by
  simp only [mrowOf, MRow.mk.injEq, List.length_append, List.length_cons,
    List.length_nil, and_true, true_and]
  push_cast
  ring

theorem plyPairs_snd (l : List Move) : ∀ k,
    (plyPairs k l).map (fun p => p.2) = l := by
  induction l with
  | nil => intro k; rfl
  | cons m t ih => intro k; simp [plyPairs, ih]

theorem plyPairs_fst (l : List Move) : ∀ k : Nat,
    (plyPairs k l).map (fun p => p.1) =
      (List.range' k l.length).map (fun i => (i : Int)) := by
  induction l with
  | nil => intro k; rfl
  | cons m t ih =>
    intro k
    simp [plyPairs, List.range'_succ, ih (k + 1)]

theorem playFrom_evals (lib : ChessLib) (g : GameDesc) (gid : String)
    (st : GState) (w : Bool) (hid : g.id = some gid) (hst : g.state = some st)
    (hw : g.is_white = some w) (c : Option Commentary) (src : String)
    (hsanAll : ∀ ms m, (lib.san ms m).isSome = true) :
    ∀ (rest played : List Move) (s : Store),
      (evalsFor (playFrom lib g c src played rest s) gid).map
          (fun r => (r.ply, r.move_uci)) =
        (evalsFor s gid).map (fun r => (r.ply, r.move_uci)) ++
          plyPairs played.length rest := by
  intro rest
  induction rest with
  | nil => intro played s; simp [playFrom, plyPairs]
  | cons m rest ih =>
    intro played s
    obtain ⟨sanStr, hsan1⟩ := Option.isSome_iff_exists.1 (hsanAll played m)
    have hmp := move_played_eq lib g gid st w hid hst hw played m sanStr hsan1
      c src s
    have hstep : playFrom lib g c src played (m :: rest) s =
        playFrom lib g c src (played ++ [m]) rest
          { s with move_evals := s.move_evals ++
              [mrowOf ⟨played ++ [m]⟩ m sanStr c src st w gid] } := by
      show (match move_played lib g ⟨played ++ [m]⟩ m c src true s with
            | .ok p => playFrom lib g c src (played ++ [m]) rest p.1
            | .error _ => playFrom lib g c src (played ++ [m]) rest s) = _
      rw [hmp]
    rw [hstep, ih (played ++ [m])]
    have hev : evalsFor
        ({ s with move_evals := s.move_evals ++
            [mrowOf ⟨played ++ [m]⟩ m sanStr c src st w gid] } : Store) gid =
        evalsFor s gid ++ [mrowOf ⟨played ++ [m]⟩ m sanStr c src st w gid] :=
      filter_append_single_self (fun r : MRow => r.game_id) s.move_evals gid
        _ rfl
    rw [hev, mrowOf_concat]
    simp [plyPairs, List.length_append]

/-- C4: the ply recorded by `move_played` is the length of the board's move
history minus one, and the human-readable notation is the move's SAN relative
to the position before the move (obtained by retracting the move, computing
the SAN, and reapplying it); consequently, for a sequence of such calls that
follows a game move by move, the `move_evals` rows of the game carry plies
that are strictly increasing from 0 and, ordered by ply, reconstruct the
exact move sequence. -/
theorem c4_ply_and_san (lib : ChessLib) (g : GameDesc) (gid : String)
    (st : GState) (w : Bool) (hid : g.id = some gid) (hst : g.state = some st)
    (hw : g.is_white = some w) (c : Option Commentary) (src : String) :
    (∀ (ms : List Move) (m : Move) (sanStr : String) (s : Store),
       lib.san ms m = some sanStr →
       move_played lib g ⟨ms ++ [m]⟩ m c src true s =
         .ok ({ s with move_evals := s.move_evals ++
                 [⟨gid, (ms.length : Int), m, sanStr, evalCpOf c,
                   evalMateOf c, depthOf c, pvStrOf c, nodesOf c, npsOf c,
                   timeMsOf c, src, if w then st.wtime else st.btime⟩] },
               ⟨ms ++ [m]⟩)) ∧
    (∀ (moves : List Move) (s0 : Store),
       (∀ ms m, (lib.san ms m).isSome = true) → evalsFor s0 gid = [] →
       (evalsFor (playFrom lib g c src [] moves s0) gid).map
           (fun r => r.move_uci) = moves ∧
       (evalsFor (playFrom lib g c src [] moves s0) gid).map
           (fun r => r.ply) =
         (List.range moves.length).map (fun i => (i : Int))) := by
  constructor
  · intro ms m sanStr s hsan
    rw [move_played_eq lib g gid st w hid hst hw ms m sanStr hsan c src s,
      mrowOf_concat]
  · intro moves s0 hsanAll hs0
    have h := playFrom_evals lib g gid st w hid hst hw c src hsanAll moves []
      s0
    rw [hs0] at h
    simp only [List.map_nil, List.nil_append, List.length_nil] at h
    constructor
    · have h2 := congrArg (List.map (fun p : Int × Move => p.2)) h
      simpa [List.map_map, Function.comp, plyPairs_snd] using h2
    · have h2 := congrArg (List.map (fun p : Int × Move => p.1)) h
      rw [List.map_map, plyPairs_fst] at h2
      rw [List.range_eq_range']
      simpa [Function.comp] using h2



/-- C4 witness: both parts of the theorem at a concrete two-move game played
through the stub library. -/
theorem c4_witness :
    (move_played libEx gEx (Board.mk ["e2e4", "e7e5", "g1f3"]) "g1f3" none
       "book" true Store.empty =
      .ok (⟨[], [⟨"test_game_1", 2, "g1f3", "san-g1f3", none, none, none,
                  none, none, none, none, "book", some 180000⟩], []⟩,
           Board.mk ["e2e4", "e7e5", "g1f3"])) ∧
    ((evalsFor (playFrom libEx gEx none "book" [] ["e2e4", "e7e5"]
        Store.empty) "test_game_1").map (fun r => r.move_uci) =
      ["e2e4", "e7e5"] ∧
     (evalsFor (playFrom libEx gEx none "book" [] ["e2e4", "e7e5"]
        Store.empty) "test_game_1").map (fun r => r.ply) =
      (List.range 2).map (fun i => (i : Int))) :=
  ⟨(c4_ply_and_san libEx gEx "test_game_1"
      ⟨some 180000, some 180000, none, some "started"⟩ true rfl rfl rfl none
      "book").1 ["e2e4", "e7e5"] "g1f3" "san-g1f3" Store.empty rfl,
   (c4_ply_and_san libEx gEx "test_game_1"
      ⟨some 180000, some 180000, none, some "started"⟩ true rfl rfl rfl none
      "book").2 ["e2e4", "e7e5"] Store.empty (fun _ _ => rfl) rfl⟩

/-- C5: for a `move_played` call whose commentary carries a score, the stored
evaluation fields are mutually exclusive — a White-normalized mate populates
only `eval_mate` (signed: positive while White is mating, negative while
Black is mating) with `eval_cp` null, a centipawn score populates only
`eval_cp` with `eval_mate` null; never both. -/
theorem c5_eval_exclusive (lib : ChessLib) (g : GameDesc) (gid : String)
    (st : GState) (w : Bool) (hid : g.id = some gid) (hst : g.state = some st)
    (hw : g.is_white = some w) (cc : Commentary) (ps : PovScore)
    (hsc : cc.score = some ps) (src : String) (ms : List Move) (m : Move)
    (sanStr : String) (hsan : lib.san ms m = some sanStr) (s : Store) :
    ∃ p row, move_played lib g ⟨ms ++ [m]⟩ m (some cc) src true s = .ok p ∧
      p.1.move_evals = s.move_evals ++ [row] ∧
      (match ps.white with
       | .mate n => row.eval_mate = some n ∧ row.eval_cp = none
       | .cp v => row.eval_cp = some v ∧ row.eval_mate = none) ∧
      ¬(row.eval_mate.isSome = true ∧ row.eval_cp.isSome = true) ∧
      (∀ k, ps = ⟨.mate k, true⟩ → row.eval_mate = some k) ∧
      (∀ k, ps = ⟨.mate k, false⟩ → row.eval_mate = some (-k)) := by
  refine ⟨_, mrowOf ⟨ms ++ [m]⟩ m sanStr (some cc) src st w gid,
    move_played_eq lib g gid st w hid hst hw ms m sanStr hsan (some cc) src s,
    rfl, ?_, ?_, ?_, ?_⟩
  · cases hwsc : ps.white with
    | mate n =>
      exact ⟨by simp [mrowOf, evalMateOf, hsc, hwsc],
             by simp [mrowOf, evalCpOf, hsc, hwsc]⟩
    | cp v =>
      exact ⟨by simp [mrowOf, evalCpOf, hsc, hwsc],
             by simp [mrowOf, evalMateOf, hsc, hwsc]⟩
  · cases hwsc : ps.white with
    | mate n => simp [mrowOf, evalMateOf, evalCpOf, hsc, hwsc]
    | cp v => simp [mrowOf, evalMateOf, evalCpOf, hsc, hwsc]
  · intro k hk
    subst hk
    simp [mrowOf, evalMateOf, hsc, PovScore.white]
  · intro k hk
    subst hk
    simp [mrowOf, evalMateOf, hsc, PovScore.white, ScoreVal.neg]

/-- C6: the elapsed-time value of the evaluation bundle is stored in whole
milliseconds — a float (fractional seconds) is multiplied by 1000 and
truncated to an integer, with 0.05 stored as 50, and an `int` input is stored
unchanged. -/
theorem c6_time_normalized (lib : ChessLib) (g : GameDesc) (gid : String)
    (st : GState) (w : Bool) (hid : g.id = some gid) (hst : g.state = some st)
    (hw : g.is_white = some w) (cc : Commentary) (src : String)
    (ms : List Move) (m : Move) (sanStr : String)
    (hsan : lib.san ms m = some sanStr) (s : Store) :
    ∃ p row, move_played lib g ⟨ms ++ [m]⟩ m (some cc) src true s = .ok p ∧
      p.1.move_evals = s.move_evals ++ [row] ∧
      (∀ q : ℚ, cc.time = some (.pfloat q) →
        row.time_ms = some (pyTrunc (q * 1000))) ∧
      (∀ n : Int, cc.time = some (.pint n) → row.time_ms = some n) ∧
      (cc.time = some (.pfloat (1/20)) → row.time_ms = some 50) := by
  refine ⟨_, mrowOf ⟨ms ++ [m]⟩ m sanStr (some cc) src st w gid,
    move_played_eq lib g gid st w hid hst hw ms m sanStr hsan (some cc) src s,
    rfl, ?_, ?_, ?_⟩
  · intro q hq
    simp [mrowOf, timeMsOf, hq]
  · intro n hn
    simp [mrowOf, timeMsOf, hn]
  · intro hq
    simp only [mrowOf, timeMsOf, hq]
    norm_num [pyTrunc]



/-- C5 witness: the theorem at a concrete mate-in-3 score from White's point
of view. -/
theorem c5_witness :
    ∃ p row, move_played libEx gEx (Board.mk ["e2e4"]) "e2e4" (some ccMate)
        "search" true Store.empty = .ok p ∧
      p.1.move_evals = [] ++ [row] ∧
      (row.eval_mate = some 3 ∧ row.eval_cp = none) ∧
      ¬(row.eval_mate.isSome = true ∧ row.eval_cp.isSome = true) ∧
      (∀ k, (⟨.mate 3, true⟩ : PovScore) = ⟨.mate k, true⟩ →
        row.eval_mate = some k) ∧
      (∀ k, (⟨.mate 3, true⟩ : PovScore) = ⟨.mate k, false⟩ →
        row.eval_mate = some (-k)) :=
  c5_eval_exclusive libEx gEx "test_game_1"
    ⟨some 180000, some 180000, none, some "started"⟩ true rfl rfl rfl ccMate
    ⟨.mate 3, true⟩ rfl "search" [] "e2e4" "san-e2e4" rfl Store.empty

/-- C6 witness: the theorem at a concrete bundle whose elapsed time is the
float 0.05 (stored as 50 ms). -/
theorem c6_witness :
    ∃ p row, move_played libEx gEx (Board.mk ["e2e4"]) "e2e4" (some ccCp)
        "search" true Store.empty = .ok p ∧
      p.1.move_evals = [] ++ [row] ∧
      (∀ q : ℚ, ccCp.time = some (.pfloat q) →
        row.time_ms = some (pyTrunc (q * 1000))) ∧
      (∀ n : Int, ccCp.time = some (.pint n) → row.time_ms = some n) ∧
      (ccCp.time = some (.pfloat (1/20)) → row.time_ms = some 50) :=
  c6_time_normalized libEx gEx "test_game_1"
    ⟨some 180000, some 180000, none, some "started"⟩ true rfl rfl rfl ccCp
    "search" [] "e2e4" "san-e2e4" rfl Store.empty

theorem update_live_state_eq (lib : ChessLib) (g : GameDesc) (gid : String)
    (st : GState) (hid : g.id = some gid) (hst : g.state = some st)
    (b : Board) (s : Store) :
    update_live_state lib g b true s =
      .ok { s with live_state := s.live_state.map (fun r =>
              if r.game_id = gid then updateLRow lib b st r else r) } := by
  unfold update_live_state update_live_stateBody
  rw [hst, hid]
  rfl

theorem foldl_updateLRow_key (lib : ChessLib) (l : List (Board × GState)) :
    ∀ r : LRow,
      (l.foldl (fun r0 p => updateLRow lib p.1 p.2 r0) r).game_id =
        r.game_id := by
  induction l with
  | nil => intro r; rfl
  | cons p rest ih => intro r; exact ih (updateLRow lib p.1 p.2 r)

theorem runUpdates_live (lib : ChessLib) (g : GameDesc) (gid : String)
    (hid : g.id = some gid) :
    ∀ (updates : List (Board × GState)) (s : Store) (r : LRow),
      r.game_id = gid → liveFor s gid = [r] →
      liveFor (runUpdates lib g updates s) gid =
        [updates.foldl (fun r0 p => updateLRow lib p.1 p.2 r0) r] := by
  intro updates
  induction updates with
  | nil => intro s r hr hs; simpa [runUpdates] using hs
  | cons p rest ih =>
    obtain ⟨b, st⟩ := p
    intro s r hr hs
    have hupd := update_live_state_eq lib { g with state := some st } gid st
      hid rfl b s
    have hstep : runUpdates lib g ((b, st) :: rest) s =
        runUpdates lib g rest
          { s with live_state := s.live_state.map (fun r0 =>
              if r0.game_id = gid then updateLRow lib b st r0 else r0) } := by
      show (match update_live_state lib { g with state := some st } b true s
            with
            | .ok s1 => runUpdates lib g rest s1
            | .error _ => runUpdates lib g rest s) = _
      rw [hupd]
    rw [hstep]
    have hnew : liveFor ({ s with live_state := s.live_state.map (fun r0 =>
        if r0.game_id = gid then updateLRow lib b st r0 else r0) } : Store)
        gid = [updateLRow lib b st r] := by
      have hm := filter_update_self (fun r0 : LRow => r0.game_id)
        (updateLRow lib b st) s.live_state gid (fun r0 => rfl)
      calc liveFor ({ s with live_state := s.live_state.map (fun r0 =>
              if r0.game_id = gid then updateLRow lib b st r0 else r0) } :
                Store) gid
          = (liveFor s gid).map (updateLRow lib b st) := hm
        _ = [updateLRow lib b st r] := by rw [hs]; rfl
    exact ih _ (updateLRow lib b st r) hr hnew

/-- C7: after `game_started` and any sequence of `update_live_state` calls
for the same game, exactly one `live_state` row exists for the game's ID, and
when at least one update was made its fields are the latest call's values:
the current FEN, the last move (or null for an empty history), the
space-joined move history, and both clocks from the latest state bundle;
`update_live_state` never appends a second row. -/
theorem c7_single_live_row (lib : ChessLib) (g : GameDesc) (f : StartFields)
    (hf : startFields g = some f) (prov : String)
    (updates : List (Board × GState)) (s : Store) :
    ∃ s1, game_started g prov true s = .ok s1 ∧
      (liveFor (runUpdates lib g updates s1) f.id).length = 1 ∧
      (∀ bN stN, updates.getLast? = some (bN, stN) →
        liveFor (runUpdates lib g updates s1) f.id =
          [⟨f.id, lib.fen bN.move_stack, bN.move_stack.getLast?,
            joinUci bN.move_stack, stN.wtime, stN.btime⟩]) := by
  have hid := startFields_id hf
  have hbody : game_startedBody g prov true s = .ok
      { games := s.games.filter (fun r => r.game_id ≠ f.id) ++
          [startGRow f prov],
        move_evals := s.move_evals,
        live_state := s.live_state.filter (fun r => r.game_id ≠ f.id) ++
          [startLRow f] } := by
    unfold game_startedBody
    rw [hf]
    rfl
  obtain ⟨s1, hs1, hlive⟩ : ∃ s1, game_started g prov true s = .ok s1 ∧
      liveFor s1 f.id = [startLRow f] := by
    refine ⟨_, by unfold game_started; rw [hbody], ?_⟩
    exact filter_replace_self (fun r : LRow => r.game_id) s.live_state f.id
      (startLRow f) rfl
  have hrun := runUpdates_live lib g f.id hid updates s1 (startLRow f) rfl
    hlive
  refine ⟨s1, hs1, ?_, ?_⟩
  · rw [hrun]
    rfl
  · intro bN stN hlast
    rw [hrun]
    have hsplit := List.dropLast_append_getLast? (bN, stN) hlast
    rw [← hsplit, List.foldl_append]
    simp only [List.foldl_cons, List.foldl_nil]
    have hkey : ((updates.dropLast).foldl
        (fun r0 p => updateLRow lib p.1 p.2 r0) (startLRow f)).game_id =
        f.id := foldl_updateLRow_key lib updates.dropLast (startLRow f)
    simp only [updateLRow] at hkey
    simp [updateLRow, LRow.mk.injEq, hkey]



/-- C7 witness: the theorem at a concrete two-update sequence. -/
theorem c7_witness :
    ∃ s1, game_started gEx "matchmaking" true Store.empty = .ok s1 ∧
      (liveFor (runUpdates libEx gEx updEx s1) "test_game_1").length = 1 ∧
      (∀ bN stN, updEx.getLast? = some (bN, stN) →
        liveFor (runUpdates libEx gEx updEx s1) "test_game_1" =
          [⟨"test_game_1", libEx.fen bN.move_stack, bN.move_stack.getLast?,
            joinUci bN.move_stack, stN.wtime, stN.btime⟩]) :=
  c7_single_live_row libEx gEx
    ⟨"test_game_1", "https://lichess.org/test_game_1", "white",
     "TestOpponent", 1500, false, "180+2", "blitz", "rated",
     "2025-01-15T12:00:00+00:00", 180000⟩ rfl "matchmaking" updEx Store.empty

/-- C8: initialization is idempotent — applying `__init__`'s schema script
and additive column migration a second time changes nothing: no duplicate
tables, indexes, or columns, no failure on the already-applied migration, and
every existing row of the three tables is left unchanged. -/
theorem c8_init_idempotent (d : DbFile) :
    initLogger (initLogger d) = initLogger d := by
  unfold initLogger
  by_cases h : d.games_has_moves_uci <;> cases hg : d.games <;>
    simp [h, hg]

theorem liveHasGame_empty : LiveHasGame Store.empty :=
  fun _ hl => absurd hl (by simp [Store.empty])

theorem applyOp_liveHasGame (lib : ChessLib) (s : Store) (op : Op)
    (h : LiveHasGame s) : LiveHasGame (applyOp lib s op) := by
  cases op with
  | started g prov ok =>
    show LiveHasGame (match game_started g prov ok s with
      | .ok s1 => s1 | .error _ => s)
    cases hbody : game_startedBody g prov ok s with
    | error e =>
      unfold game_started
      rw [hbody]
      cases hgid : g.id with
      | none => exact h
      | some v => exact h
    | ok sb =>
      unfold game_started
      rw [hbody]
      obtain ⟨f, hf, -, hs1⟩ := game_startedBody_ok hbody
      subst hs1
      intro l hl
      rcases List.mem_append.1 hl with hl1 | hl2
      · have hl' := List.mem_filter.1 hl1
        obtain ⟨r, hr, hkey⟩ := h l hl'.1
        refine ⟨r, List.mem_append.2 (Or.inl (List.mem_filter.2
          ⟨hr, ?_⟩)), hkey⟩
        rw [show r.game_id = l.game_id from hkey]
        exact hl'.2
      · refine ⟨startGRow f prov, List.mem_append.2 (Or.inr (by simp)), ?_⟩
        have : l = startLRow f := by simpa using hl2
        rw [this]
        rfl
  | played g b m c src ok =>
    show LiveHasGame (match move_played lib g b m c src ok s with
      | .ok p => p.1 | .error _ => s)
    cases hbody : movePlayedBody lib g b m c src ok s with
    | inl bErr =>
      unfold move_played
      rw [hbody]
      cases hgid : g.id with
      | none => exact h
      | some v => exact h
    | inr p =>
      unfold move_played
      rw [hbody]
      obtain ⟨sanStr, st, w, idv, -, -, -, -, -, -, hp⟩ :=
        movePlayedBody_inr hbody
      subst hp
      exact h
  | updated g b ok =>
    show LiveHasGame (match update_live_state lib g b ok s with
      | .ok s1 => s1 | .error _ => s)
    cases hbody : update_live_stateBody lib g b ok s with
    | error e =>
      unfold update_live_state
      rw [hbody]
      cases hgid : g.id with
      | none => exact h
      | some v => exact h
    | ok s1 =>
      unfold update_live_state
      rw [hbody]
      obtain ⟨st, idv, -, -, -, hs1⟩ := update_live_stateBody_ok hbody
      subst hs1
      intro l hl
      obtain ⟨l0, hl0, rfl⟩ := List.mem_map.1 hl
      obtain ⟨r, hr, hkey⟩ := h l0 hl0
      refine ⟨r, hr, ?_⟩
      rw [hkey]
      by_cases hc : l0.game_id = idv <;> simp [hc, updateLRow]
  | finished g now ok =>
    show LiveHasGame (match game_finished g now ok s with
      | .ok s1 => s1 | .error _ => s)
    cases hbody : game_finishedBody g now ok s with
    | error e =>
      unfold game_finished
      rw [hbody]
      cases hgid : g.id with
      | none => exact h
      | some v => exact h
    | ok s1 =>
      unfold game_finished
      rw [hbody]
      obtain ⟨st, idv, -, -, -, -, hs1⟩ := game_finishedBody_ok hbody
      subst hs1
      intro l hl
      have hl' := List.mem_filter.1 hl
      obtain ⟨r, hr, hkey⟩ := h l hl'.1
      have hln : ¬ l.game_id = idv := by simpa using hl'.2
      have hrn : ¬ r.game_id = idv := fun hc => hln (hkey.symm.trans hc)
      refine ⟨if r.game_id = idv then
          finishGRow (resultToken st.winner) st.status now (liveMoves s idv) r
        else r, List.mem_map.2 ⟨r, hr, rfl⟩, ?_⟩
      rw [if_neg hrn]
      exact hkey

/-- C9: in every store reachable from the empty database by any sequence of
the four lifecycle operations — any inputs, any storage-engine behaviour —
every `live_state` row's game ID has a corresponding `games` row. -/
theorem c9_live_has_games_row (lib : ChessLib) (ops : List Op) :
    LiveHasGame (runOps lib ops) := by
  have key : ∀ (l : List Op) (s : Store), LiveHasGame s →
      LiveHasGame (l.foldl (applyOp lib) s) := by
    intro l
    induction l with
    | nil => exact fun s hs => hs
    | cons op rest ih =>
      exact fun s hs => ih _ (applyOp_liveHasGame lib s op hs)
  exact key ops Store.empty liveHasGame_empty

/-- C10 counterexample: a `move_played` call whose board's last move
(`e2e4`) differs from the `move` argument (`d2d4`) completes its body
normally, yet the caller's board comes back changed — the popped `e2e4` is
replaced by the pushed `d2d4`. -/
theorem c10_counterexample :
    (movePlayedBody libEx gEx (Board.mk ["e2e4"]) "d2d4" none "search" true
      Store.empty).isRight = true ∧
    boardOut (movePlayedBody libEx gEx (Board.mk ["e2e4"]) "d2d4" none
      "search" true Store.empty) ≠ Board.mk ["e2e4"] := by
  decide

/-- C10 (amended): for every `move_played` call whose board has the played
move as the last entry of its move stack and whose body completes without an
internal exception, the caller's board is left exactly as it was on entry:
the temporary retraction for notation computation is followed by re-pushing
the same move, so the final move stack equals the initial one. -/
theorem c10_board_restored (lib : ChessLib) (g : GameDesc) (b : Board)
    (m : Move) (c : Option Commentary) (src : String) (ok : Bool) (s : Store)
    (p : Store × Board) (hlast : b.move_stack.getLast? = some m)
    (h : movePlayedBody lib g b m c src ok s = Sum.inr p) : p.2 = b := by
  obtain ⟨sanStr, st, w, idv, -, -, -, -, -, -, hp⟩ := movePlayedBody_inr h
  subst hp
  exact congrArg Board.mk (List.dropLast_append_getLast? m hlast)

/-- C10 witness: the amended theorem at the concrete one-move board whose
last entry is the played move. -/
theorem c10_witness :
    boardOut (movePlayedBody libEx gEx (Board.mk ["e2e4"]) "e2e4" none
      "search" true Store.empty) = Board.mk ["e2e4"] := by
  have h : movePlayedBody libEx gEx (Board.mk ["e2e4"]) "e2e4" none "search"
      true Store.empty = Sum.inr
      (⟨[], [⟨"test_game_1", 0, "e2e4", "san-e2e4", none, none, none, none,
              none, none, none, "search", some 180000⟩], []⟩,
       Board.mk ["e2e4"]) := by decide
  rw [h]
  exact c10_board_restored libEx gEx (Board.mk ["e2e4"]) "e2e4" none "search"
    true Store.empty _ (by decide) h

end GameLogger
